import Mathlib

/-!
Shallow embedding of `spaceinvader.py` (single-file pygame game), covering the
parts that the specification's claims are about: the highscore table, the boss
spawn countdown, the player damage model, combo scoring, shields, the enemy
grid (march, edge reversal, enemy shots) and the enemy-breach penalty inside
`Game.handle_collisions`.

Conventions of the embedding:
- Python floats are modelled as rationals (`ℚ`); all the constants of the game
  (0.1, 1.5, 0.28, ...) are exactly representable.
- Python `int(...)` truncation toward zero is `pyInt`, Python 3 `round`
  (banker's rounding, half to even) is `pyRound`, Python `//` (floor division)
  is `Int.fdiv`.
- `random.random()` / `random.uniform` / `random.choice` draws are passed in
  as explicit parameters (a rational draw, or an index into the sampled list),
  so every function is deterministic in its inputs.
- `pygame.Rect` is a quadruple of integers; `colliderect` is pygame's strict
  overlap test.
- Fallible I/O (`load_highscores`) is modelled as a total function over an
  abstract description of the file contents, so "never raises" is expressed by
  totality.
-/

namespace SpaceInvader

/-! ## Settings and constants (HARD_MODE = False in the source) -/

def WIDTH : ℤ := 800
def HEIGHT : ℤ := 600
def FPS : ℕ := 60
def PLAYER_SPEED : ℚ := 300
def PLAYER_CD_MS : ℤ := 250
def PLAYER_MAX_BULLETS : ℕ := 3
def PLAYER_LIVES : ℤ := 3
def ENEMY_ROWS : ℕ := 6
def ENEMY_COLS : ℕ := 8
def ENEMY_START_SPEED : ℚ := 72
def ENEMY_STEP_DOWN : ℤ := 20
def ENEMY_FIRE_RATE : ℚ := 28/100
def ENEMY_MAX_BULLETS : ℕ := 6
def BOSS_CD_MIN : ℚ := 20
def BOSS_CD_MAX : ℚ := 30
def BOSS_SPEED : ℚ := 200
def PLAYER_BULLET_SPEED : ℚ := -500
def ENEMY_BULLET_SPEED : ℚ := 300
def SHIELD_SEG_SIZE : ℤ := 12
def SHIELD_SEG_HP : ℤ := 3
def WAVE_SPEED_MULT : ℚ := 11/10
def WAVE_FIRE_MULT : ℚ := 21/20
def COMBO_WINDOW : ℚ := 1
def COMBO_STEP : ℚ := 1/10

inductive Scene
  | MENU | PLAYING | PAUSED | GAME_OVER
deriving DecidableEq, Repr

/-! ## Numeric helpers mirroring Python semantics -/

/-- Python `int(x)`: truncation toward zero. -/
def pyInt (q : ℚ) : ℤ := if 0 ≤ q then ⌊q⌋ else ⌈q⌉

/-- Python 3 `round(x)` with no digits argument: round half to even. -/
def pyRound (q : ℚ) : ℤ :=
  if q - ⌊q⌋ = 1/2 then (if ⌊q⌋ % 2 = 0 then ⌊q⌋ else ⌊q⌋ + 1) else ⌊q + 1/2⌋

/-! ## Geometry: pygame.Rect -/

structure Rect where
  x : ℤ
  y : ℤ
  w : ℤ
  h : ℤ
deriving DecidableEq, Repr

def Rect.left (r : Rect) : ℤ := r.x
def Rect.right (r : Rect) : ℤ := r.x + r.w
def Rect.top (r : Rect) : ℤ := r.y
def Rect.bottom (r : Rect) : ℤ := r.y + r.h
def Rect.centerx (r : Rect) : ℤ := r.x + r.w.fdiv 2

/-- pygame `Rect.colliderect`: strict overlap of the two boxes. -/
def Rect.colliderect (a b : Rect) : Bool :=
  decide (a.x < b.x + b.w) && decide (a.y < b.y + b.h) &&
  decide (b.x < a.x + a.w) && decide (b.y < a.y + a.h)

/-! ## Highscore persistence (`load_highscores`, `save_highscores`,
`Game.game_over`) -/

/-- Abstract contents of `highscore.json`: the file is absent, unreadable or
structurally malformed (unparseable JSON, or a `top` entry that is not a
list), or a valid record whose `top` key is either missing (`none`) or holds a
list of integers. -/
inductive HSFile
  | absent
  | malformed
  | valid (top : Option (List ℤ))
deriving DecidableEq, Repr

/-- The `top` list held by the game after `load_highscores` (`none` means the
loaded record has no `top` key; `data.get("top", [])` then yields `[]` so the
validity check passes and the record is returned as is). Totality of this
function models "never raises". -/
def load_highscores : HSFile → Option (List ℤ)
  | .absent => some []
  | .malformed => some []
  | .valid t => t

/-- Insert into a descending list, keeping it descending. -/
def insertDesc (a : ℤ) : List ℤ → List ℤ
  | [] => [a]
  | b :: bs => if a ≥ b then a :: b :: bs else b :: insertDesc a bs

/-- Python `sorted(l, reverse=True)` on integers. -/
def sortDesc : List ℤ → List ℤ
  | [] => []
  | a :: as => insertDesc a (sortDesc as)

/-- The invariant claimed of every highscore table: at most five entries,
sorted in descending order. -/
def tableInv (l : List ℤ) : Prop :=
  l.length ≤ 5 ∧ List.Sorted (· ≥ ·) l

instance (l : List ℤ) : Decidable (tableInv l) := by
  unfold tableInv; infer_instance

/-- The data written by `save_highscores(top)`:
`list(sorted(top, reverse=True))[:5]`. -/
def save_highscores_data (top : List ℤ) : List ℤ :=
  (sortDesc top).take 5

/-- The new `top` list computed by `Game.game_over`:
append the final score, sort descending, truncate to five. -/
def gameOverTopList (prev : List ℤ) (score : ℤ) : List ℤ :=
  (sortDesc (prev ++ [score])).take 5

/-- The `just_made_highscore` flag computed by `Game.game_over`.
Faithful to the aliasing in the source: `top = self.highscores.get("top", [])`
returns the stored list object itself when the `top` key is present, so
`top.append(self.score)` mutates the stored list before the second
`self.highscores.get("top", [])` membership test reads it. When the key is
missing, each `get` call yields a fresh empty list. -/
def gameOverFlag (prevTop : Option (List ℤ)) (score : ℤ) : Bool :=
  match prevTop with
  | some t =>
      let t2 := t ++ [score]
      let top := (sortDesc t2).take 5
      decide (score ∈ top) && !(decide (score ∈ t2))
  | none =>
      let top := (sortDesc ([] ++ [score])).take 5
      decide (score ∈ top) && !(decide (score ∈ ([] : List ℤ)))

/-! ## Bullet -/

structure Bullet where
  rect : Rect
  vy : ℚ
  damage : ℤ
  is_player : Bool
  alive : Bool
deriving DecidableEq, Repr

/-- Model of `Bullet.__init__(x, y, vy, damage, is_player)`:
rect is `Rect(int(x) - 2, int(y) - 8, 4, 12)`. -/
def mkBullet (x y : ℤ) (vy : ℚ) (damage : ℤ) ( is_player : Bool) : Bullet :=
  { rect := ⟨x - 2, y - 8, 4, 12⟩, vy := vy, damage := damage,
    is_player := is_player, alive := true }

/-! ## Player -/

structure PlayerSt where
  rect : Rect
  lives : ℤ
  invuln_timer : ℚ
  shoot_timer : ℚ
deriving DecidableEq, Repr

/-- Model of `Player.__init__(x, y)`: a `PLAYER_SIZE` (50×30) box with `centerx = x`
and `bottom = y`. -/
def mkPlayer (x y : ℤ) : PlayerSt :=
  { rect := ⟨x - 25, y - 30, 50, 30⟩, lives := PLAYER_LIVES,
    invuln_timer := 0, shoot_timer := 0 }

/-- Model of `Player.reset_position()`: `centerx = WIDTH // 2`, `bottom = HEIGHT - 30`. -/
def PlayerSt.reset_position (p : PlayerSt) : PlayerSt :=
  { p with rect := { p.rect with x := WIDTH.fdiv 2 - p.rect.w.fdiv 2,
                                 y := HEIGHT - 30 - p.rect.h } }

/-- Model of `Player.hit()`. The `GODMODE` process-wide flag is passed explicitly.
Returns the new player state together with the "damage applied" flag. -/
def PlayerSt.hit (p : PlayerSt) (godmode : Bool) : PlayerSt × Bool :=
  if p.invuln_timer > 0 ∨ godmode = true then (p, false)
  else ({ p with lives := p.lives - 1, invuln_timer := 3/2 }, true)

/-! ## Enemy and EnemyGrid -/

inductive EType
  | common | tough | shooter
deriving DecidableEq, Repr

structure Enemy where
  rect : Rect
  type : EType
  row_idx : ℕ
  hp : ℤ
  points : ℤ
  hit_flash : ℚ
deriving DecidableEq, Repr

/-- Model of `Enemy.__init__(x, y, etype, row_idx)`: a 44×28 box, with hp/points
depending on the type. -/
def mkEnemy (x y : ℤ) (etype : EType) (row_idx : ℕ) : Enemy :=
  match etype with
  | .common => ⟨⟨x, y, 44, 28⟩, .common, row_idx, 1, 10, 0⟩
  | .tough => ⟨⟨x, y, 44, 28⟩, .tough, row_idx, 2, 20, 0⟩
  | .shooter => ⟨⟨x, y, 44, 28⟩, .shooter, row_idx, 1, 30, 0⟩

/-- Enemy type from the uniform draw `p = random.random()`:
shooter below 0.05, tough below 0.30, common otherwise. -/
def etypeOfDraw (p : ℚ) : EType :=
  if p < 5/100 then .shooter else if p < 30/100 then .tough else .common

structure EnemyGrid where
  enemies : List Enemy
  dir : ℤ
  speed : ℚ
  descend_pending : ℤ
  time_since_shot : ℚ
  fire_rate : ℚ
deriving DecidableEq, Repr

/-- Model of `EnemyGrid.__init__(wave)`. The per-enemy `random.random()` draws are
supplied by `draw`, indexed row-major (`row * ENEMY_COLS + col`). -/
def mkEnemyGrid (wave : ℕ) (draw : ℕ → ℚ) : EnemyGrid :=
  { enemies :=
      (List.range ENEMY_ROWS).flatMap (fun row =>
        (List.range ENEMY_COLS).map (fun col =>
          let idx : ℕ := row * ENEMY_COLS + col
          mkEnemy (60 + 70 * (col : ℤ)) (70 + 50 * (row : ℤ))
            (etypeOfDraw (draw idx)) row)),
    dir := 1,
    speed := ENEMY_START_SPEED * WAVE_SPEED_MULT ^ (wave - 1),
    descend_pending := 0,
    time_since_shot := 0,
    fire_rate := ENEMY_FIRE_RATE * WAVE_FIRE_MULT ^ (wave - 1) }

/-- Model of `EnemyGrid.bounds()` on a list of rects: the smallest enclosing rect,
`Rect(0, 0, 0, 0)` when there are none. -/
def boundsOf : List Rect → Rect
  | [] => ⟨0, 0, 0, 0⟩
  | r :: rest =>
      let l := rest.foldl (fun a s => min a s.left) r.left
      let t := rest.foldl (fun a s => min a s.top) r.top
      let rr := rest.foldl (fun a s => max a s.right) r.right
      let b := rest.foldl (fun a s => max a s.bottom) r.bottom
      ⟨l, t, rr - l, b - t⟩

def EnemyGrid.bounds (g : EnemyGrid) : Rect :=
  boundsOf (g.enemies.map Enemy.rect)

/-- The integer horizontal step of `EnemyGrid.update`:
`dx = int(dir * speed * accel * dt)` with
`accel = 1 + 0.6 * (1 - alive / (ENEMY_ROWS * ENEMY_COLS))`. -/
def gridDx (g : EnemyGrid) (dt : ℚ) : ℤ :=
  pyInt ((g.dir : ℚ) * g.speed *
    (1 + 6/10 * (1 - (g.enemies.length : ℚ) / ((ENEMY_ROWS : ℚ) * (ENEMY_COLS : ℚ)))) * dt)

/-- The per-enemy effect of the horizontal march loop of `EnemyGrid.update`:
shift `rect.x` by `dx` and tick down a positive `hit_flash`. -/
def enemyMove (dx : ℤ) (dt : ℚ) (e : Enemy) : Enemy :=
  { e with rect := { e.rect with x := e.rect.x + dx },
           hit_flash := if e.hit_flash > 0 then e.hit_flash - dt else e.hit_flash }

/-- The per-enemy effect of the descend loop of `EnemyGrid.update`. -/
def enemyStepDown (e : Enemy) : Enemy :=
  { e with rect := { e.rect with y := e.rect.y + ENEMY_STEP_DOWN } }

/-- The edge test of `EnemyGrid.update`, evaluated on the bounds of the grid
after the horizontal move of this frame:
`(b.left <= 20 and dir < 0) or (b.right >= WIDTH - 20 and dir > 0)`. -/
def gridHitEdge (g : EnemyGrid) (dt : ℚ) : Prop :=
  let b := boundsOf ((g.enemies.map (enemyMove (gridDx g dt) dt)).map Enemy.rect)
  (b.left ≤ 20 ∧ g.dir < 0) ∨ (b.right ≥ WIDTH - 20 ∧ g.dir > 0)

instance (g : EnemyGrid) (dt : ℚ) : Decidable (gridHitEdge g dt) := by
  unfold gridHitEdge; infer_instance

/-- Model of `EnemyGrid.update(dt)`: horizontal march, then edge detection, then
reverse and descend on edge contact. -/
def EnemyGrid.update (g : EnemyGrid) (dt : ℚ) : EnemyGrid :=
  let moved := g.enemies.map (enemyMove (gridDx g dt) dt)
  if gridHitEdge g dt then
    { g with dir := -g.dir, enemies := moved.map enemyStepDown }
  else
    { g with enemies := moved }

/-- The column bucket of an enemy in `try_enemy_shot`:
`e.rect.centerx // 70`. -/
def colBucket (e : Enemy) : ℤ := e.rect.centerx.fdiv 70

/-- One step of the `cols` dictionary construction in `try_enemy_shot`:
`if col not in cols or e.rect.bottom > cols[col].rect.bottom: cols[col] = e`.
Python dicts preserve key insertion order and keep a key's position on value
replacement, so the dict is an association list. -/
def colsUpdate (cols : List (ℤ × Enemy)) (e : Enemy) : List (ℤ × Enemy) :=
  if (cols.find? (fun q => decide (q.1 = colBucket e))).isSome then
    cols.map (fun q =>
      if q.1 = colBucket e ∧ e.rect.bottom > q.2.rect.bottom then (q.1, e) else q)
  else
    cols ++ [(colBucket e, e)]

/-- The full `cols` dictionary of `try_enemy_shot`: bottom-most enemy per
column bucket, keys in first-appearance order. -/
def shooterCols (enemies : List Enemy) : List (ℤ × Enemy) :=
  enemies.foldl colsUpdate []

/-- Model of `EnemyGrid.try_enemy_shot(bullets, max_enemy_bullets, sound)`.
`r` is the `random.random()` draw and `choice` the index drawn by
`random.choice` into `list(cols.values())`. Returns the new bullet list
(the only state this method changes). -/
def EnemyGrid.try_enemy_shot (g : EnemyGrid) (bullets : List Bullet)
    (max_enemy_bullets : ℕ) (r : ℚ) (choice : ℕ) : List Bullet :=
  let active := (bullets.filter (fun b => !b.is_player)).length
  if active ≥ max_enemy_bullets ∨ g.enemies.length = 0 then bullets
  else
    match shooterCols g.enemies with
    | [] => bullets
    | c0 :: rest =>
        if r < g.fire_rate / (FPS : ℚ) then
          let shooters := (c0 :: rest).map Prod.snd
          let shooter := shooters.getD (choice % shooters.length) c0.2
          bullets ++ [mkBullet shooter.rect.centerx (shooter.rect.bottom + 6)
            ENEMY_BULLET_SPEED 1 false]
        else bullets

/-! ## Boss -/

structure BossSt where
  rect : Rect
  speed : ℚ
  alive : Bool
deriving DecidableEq, Repr

/-- Model of `Boss.__init__(y)`: `Rect(-80, y, 60, 24)`, alive. -/
def mkBoss (y : ℤ) : BossSt :=
  { rect := ⟨-80, y, 60, 24⟩, speed := BOSS_SPEED, alive := true }

/-- Model of `Boss.update(dt)`: move right by `int(speed * dt)`, die once fully past
the right edge. -/
def BossSt.update (b : BossSt) (dt : ℚ) : BossSt :=
  let r := { b.rect with x := b.rect.x + pyInt (b.speed * dt) }
  { b with rect := r, alive := if r.left > WIDTH + 40 then false else b.alive }

/-- The boss portion of `Game.update_game` (scene = PLAYING):
`self.next_boss_time -= dt`; spawn when the countdown is non-positive and no
boss exists (resetting the countdown to the fresh draw `r` of
`_rand_boss_timer`); then update an existing boss and despawn it when dead.
Returns the new `(next_boss_time, boss)` pair. -/
def bossStep (next_boss_time : ℚ) (boss : Option BossSt) (dt r : ℚ) :
    ℚ × Option BossSt :=
  let t := next_boss_time - dt
  match boss with
  | none =>
      if t ≤ 0 then
        let b := (mkBoss 50).update dt
        (r, if b.alive then some b else none)
      else (t, none)
  | some b0 =>
      let b := b0.update dt
      (t, if b.alive then some b else none)

/-! ## Shields -/

structure ShieldPiece where
  rect : Rect
  hp : ℤ
deriving DecidableEq, Repr

/-- Model of `ShieldPiece.hit()`: lose one hit point, report destruction. -/
def ShieldPiece.hit (p : ShieldPiece) : ShieldPiece × Bool :=
  ({ p with hp := p.hp - 1 }, decide (p.hp - 1 ≤ 0))

/-- Model of `Shields.collide_bullet(b)` on the piece list: the first piece whose box
intersects the bullet takes one hit (and is removed when destroyed); the
traversal stops there and the call reports `true`; with no intersection the
pieces are untouched and the call reports `false`. -/
def shieldsCollide (pieces : List ShieldPiece) (b : Bullet) :
    List ShieldPiece × Bool :=
  match pieces with
  | [] => ([], false)
  | p :: rest =>
      if p.rect.colliderect b.rect then
        (if p.hp - 1 ≤ 0 then rest else { p with hp := p.hp - 1 } :: rest, true)
      else
        let out := shieldsCollide rest b
        (p :: out.1, out.2)

/-! ## Scoring (`Game.score_add`) -/

structure ScoreSt where
  score : ℤ
  combo_mult : ℚ
  last_kill_time : ℚ
deriving DecidableEq, Repr

/-- Model of `Game.score_add(base_points)` with the wall-clock `time.time()` value `t`
passed explicitly. -/
def score_add (s : ScoreSt) (base_points : ℤ) (t : ℚ) : ScoreSt :=
  let combo := if t - s.last_kill_time ≤ COMBO_WINDOW then s.combo_mult + COMBO_STEP
               else 0
  { score := s.score + pyRound ((base_points : ℚ) * (1 + combo)),
    combo_mult := combo,
    last_kill_time := t }

/-! ## Particles (state only; cosmetic) -/

structure Particle where
  x : ℚ
  y : ℚ
  vx : ℚ
  vy : ℚ
  life : ℚ
  max_life : ℚ
  size : ℕ
deriving DecidableEq, Repr

/-! ## Game state and the enemy-breach penalty of `Game.handle_collisions` -/

structure GameSt where
  scene : Scene
  player : PlayerSt
  bullets : List Bullet
  particles : List Particle
  grid : Option EnemyGrid
  shields : List ShieldPiece
  wave : ℕ
  score : ℤ
  combo_mult : ℚ
  last_kill_time : ℚ
  shake_timer : ℚ
  shake_mag : ℚ
  boss : Option BossSt
  next_boss_time : ℚ
  highscoresTop : Option (List ℤ)
  just_made_highscore : Bool
deriving DecidableEq, Repr

/-- Model of `Game.shake(amount)`: `shake_timer = 0.28`,
`shake_mag = max(shake_mag, amount)`. -/
def GameSt.shake (st : GameSt) (amount : ℚ) : GameSt :=
  { st with shake_timer := 28/100, shake_mag := max st.shake_mag amount }

/-- Model of `Game.game_over()`: update the highscore record (top five, with the
aliased membership test of `gameOverFlag`), remember the flag, switch to the
GAME_OVER scene (saving to disk and playing the cue have no simulated state). -/
def GameSt.game_over (st : GameSt) : GameSt :=
  { st with
      highscoresTop := some (gameOverTopList (st.highscoresTop.getD []) st.score),
      just_made_highscore := gameOverFlag st.highscoresTop st.score,
      scene := Scene.GAME_OVER }

/-- The breach condition tested per enemy in the last block of
`Game.handle_collisions`: the enemy box overlaps the player box, or its
bottom reaches `HEIGHT - 50`. -/
def breachCond (p : PlayerSt) (e : Enemy) : Bool :=
  e.rect.colliderect p.rect || decide (e.rect.bottom ≥ HEIGHT - 50)

/-- The final block of `Game.handle_collisions` ("Enemies reaching bottom or
colliding with player"): on the first breaching enemy, hit the player (with a
magnitude-12 shake on actual damage), regenerate the wave as a fresh
`EnemyGrid(max(1, wave))` built from the draws `draw`, clear all bullets,
reposition the player, re-apply the game-over check, and stop scanning. -/
def GameSt.enemyBreachStep (st : GameSt) (godmode : Bool) (draw : ℕ → ℚ) :
    GameSt :=
  match st.grid with
  | none => st
  | some g =>
      if g.enemies.any (breachCond st.player) then
        let hitRes := st.player.hit godmode
        let st1 := if hitRes.2 then st.shake 12 else st
        let st2 := { st1 with
                       grid := some (mkEnemyGrid (max 1 st.wave) draw),
                       bullets := [],
                       player := hitRes.1.reset_position }
        if hitRes.1.lives ≤ 0 ∧ godmode = false then st2.game_over else st2
      else st

/-! ## Derived predicates and sample states used by the theorems -/

/-- Soundness of the `cols` dictionary of `try_enemy_shot` with respect to an
enemy list: every entry is a bottom-most living enemy of its column bucket,
and every living enemy's bucket has an entry. -/
def ColsSound (enemies : List Enemy) (cols : List (ℤ × Enemy)) : Prop :=
  (∀ q ∈ cols, q.2 ∈ enemies ∧ colBucket q.2 = q.1 ∧
     ∀ e ∈ enemies, colBucket e = q.1 → e.rect.bottom ≤ q.2.rect.bottom) ∧
  (∀ e ∈ enemies, ∃ q ∈ cols, q.1 = colBucket e)

def defaultEnemy : Enemy := mkEnemy 0 0 EType.common 0

/-- A constant stream of `random.random()` draws (every enemy common). -/
def sampleDraw : ℕ → ℚ := fun _ => 1/2

/-- An enemy below the near-bottom threshold, overlapping the starting player
box. -/
def breachEnemy : Enemy := mkEnemy 375 525 EType.common 5

def breachGrid : EnemyGrid :=
  { enemies := [breachEnemy], dir := 1, speed := 72, descend_pending := 0,
    time_since_shot := 0, fire_rate := 28/100 }

/-- A PLAYING state one frame away from the enemy-breach penalty. -/
def breachSample : GameSt :=
  { scene := Scene.PLAYING, player := mkPlayer 400 570, bullets := [],
    particles := [], grid := some breachGrid, shields := [], wave := 1,
    score := 0, combo_mult := 0, last_kill_time := -999, shake_timer := 0,
    shake_mag := 0, boss := none, next_boss_time := 25,
    highscoresTop := some [], just_made_highscore := false }

/-- A one-enemy grid touching the right 20px margin while travelling right. -/
def edgeGrid : EnemyGrid :=
  { enemies := [mkEnemy 740 100 EType.common 0], dir := 1, speed := 72,
    descend_pending := 0, time_since_shot := 0, fire_rate := 28/100 }

/-- The same grid travelling left: no margin is crossed. -/
def midGrid : EnemyGrid :=
  { enemies := [mkEnemy 740 100 EType.common 0], dir := -1, speed := 72,
    descend_pending := 0, time_since_shot := 0, fire_rate := 28/100 }

/-- A full-health shield piece the sample bullet misses. -/
def pieceA : ShieldPiece := { rect := ⟨0, 0, 12, 12⟩, hp := 3 }

/-- A one-hit-point shield piece the sample bullet strikes. -/
def pieceB : ShieldPiece := { rect := ⟨20, 0, 12, 12⟩, hp := 1 }

/-- An enemy bullet whose box overlaps `pieceB` but not `pieceA`. -/
def shieldBulletSample : Bullet := mkBullet 24 13 ENEMY_BULLET_SPEED 1 false

/-- Two enemies in the same column bucket; the lower one is the sole eligible
shooter. -/
def shooterGridSample : EnemyGrid :=
  { enemies := [mkEnemy 60 70 EType.common 0, mkEnemy 60 120 EType.tough 1],
    dir := 1, speed := 72, descend_pending := 0, time_since_shot := 0,
    fire_rate := 28/100 }

/-! ## Helper lemmas -/

theorem mem_insertDesc {c a : ℤ} {l : List ℤ} :
    c ∈ insertDesc a l ↔ c = a ∨ c ∈ l := by
  induction l with
  | nil => simp [insertDesc]
  | cons b bs ih =>
      by_cases hab : a ≥ b <;> simp [insertDesc, hab, ih] <;> tauto

theorem sorted_insertDesc (a : ℤ) {l : List ℤ}
    (h : List.Sorted (fun x y => x ≥ y) l) :
    List.Sorted (fun x y => x ≥ y) (insertDesc a l) := by
  induction l with
  | nil => simp [insertDesc]
  | cons b bs ih =>
      rw [List.sorted_cons] at h
      by_cases hab : a ≥ b
      · rw [insertDesc, if_pos hab, List.sorted_cons]
        refine ⟨?_, List.sorted_cons.mpr h⟩
        intro c hc
        rcases List.mem_cons.mp hc with rfl | hc
        · exact hab
        · exact le_trans (h.1 c hc) hab
      · rw [insertDesc, if_neg hab, List.sorted_cons]
        refine ⟨?_, ih h.2⟩
        intro c hc
        rcases mem_insertDesc.mp hc with rfl | hc
        · exact le_of_not_le hab
        · exact h.1 c hc

theorem sorted_sortDesc (l : List ℤ) :
    List.Sorted (fun x y => x ≥ y) (sortDesc l) := by
  induction l with
  | nil => simp [sortDesc]
  | cons a as ih => exact sorted_insertDesc a ih

theorem tableInv_sorted_take (l : List ℤ) : tableInv ((sortDesc l).take 5) :=
  ⟨List.length_take_le 5 _,
   List.Pairwise.sublist (List.take_sublist 5 _) (sorted_sortDesc l)⟩

/-! ## Claim C1 -/

/-- Claim C1 counterexample: a file that is neither absent nor rejected by
the load-time validity check (its `top` entry is a list) but whose list is
not sorted descending is returned by `load_highscores` unchanged, so the
table held by the game right after this load violates the claimed
always-invariant — and it is not the empty list either. -/
theorem highscore_invariant_cex :
    load_highscores (HSFile.valid (some [0, 1])) = some [0, 1] ∧
    ¬ tableInv [0, 1] ∧ ([0, 1] : List ℤ) ≠ [] := by
  refine ⟨rfl, by decide, by decide⟩

/-- Claim C1 (amended): `load_highscores` is total (never raises) and
returns the empty table on an absent or malformed file, but passes a
well-typed `top` list through unchanged; `Game.game_over` and
`save_highscores` always produce a table of length at most five sorted
descending; hence every table held by the game satisfies the invariant
provided the loaded file's list already does (as every file written by this
game does). -/
theorem highscore_invariant :
    (load_highscores HSFile.absent = some [] ∧
     load_highscores HSFile.malformed = some []) ∧
    (∀ t, load_highscores (HSFile.valid (some t)) = some t) ∧
    (∀ prev s, tableInv (gameOverTopList prev s)) ∧
    (∀ top, tableInv (save_highscores_data top)) ∧
    (∀ t, tableInv t → tableInv ((load_highscores (HSFile.valid (some t))).getD [])) := by
  refine ⟨⟨rfl, rfl⟩, fun t => rfl, fun prev s => tableInv_sorted_take _,
    fun top => tableInv_sorted_take _, fun t h => h⟩

/-- Witness for the amended C1 theorem at concrete inputs. -/
theorem highscore_invariant_witness :
    tableInv (gameOverTopList [30, 10] 20) ∧
    tableInv [5, 2] ∧
    tableInv ((load_highscores (HSFile.valid (some [5, 2]))).getD []) :=
  ⟨highscore_invariant.2.2.1 [30, 10] 20, by decide,
   highscore_invariant.2.2.2.2 [5, 2] (by decide)⟩

/-! ## Claim C10 -/

/-- Claim C10 is the intended reading of `Game.game_over`, but the code has a
defect: `top = self.highscores.get("top", [])` aliases the stored list, so
`top.append(self.score)` mutates it before the membership test
`self.score not in self.highscores.get("top", [])` reads it; the test is
therefore against a list that always contains the final score. Concretely,
with previous table `[10]` and final score `50`, the score enters the updated
top five and `50` was not in the previous table, so the claim requires
`just_made_highscore = true`, yet the code computes `false`; indeed the flag
is `false` for every previous record that has a `top` key. -/
theorem just_made_highscore_bug :
    (gameOverFlag (some [10]) 50 = false ∧
     50 ∈ gameOverTopList [10] 50 ∧
     (50 : ℤ) ∉ ([10] : List ℤ)) ∧
    (∀ (t : List ℤ) (s : ℤ), gameOverFlag (some t) s = false) := by
  refine ⟨by decide, fun t s => ?_⟩
  have hs : s ∈ t ++ [s] := List.mem_append.mpr (Or.inr (List.mem_singleton.mpr rfl))
  simp [gameOverFlag, hs]

/-! ## Claim C3 -/

/-- Claim C3: for every player state, `Player.hit()` is a no-op returning
`false` (lives unchanged, invulnerability timer not reset) whenever the
invulnerability timer is positive or god-mode is active; otherwise it
decrements lives by exactly one, sets the invulnerability timer to exactly
1.5 seconds, and returns `true`. -/
theorem player_hit_spec :
    ∀ (p : PlayerSt) (god : Bool),
      ((p.invuln_timer > 0 ∨ god = true) → p.hit god = (p, false)) ∧
      (p.invuln_timer ≤ 0 → god = false →
        p.hit god = ({ p with lives := p.lives - 1, invuln_timer := 3/2 }, true)) := by
  intro p god
  constructor
  · intro h
    simp only [PlayerSt.hit, if_pos h]
  · intro h1 h2
    have hcond : ¬ (p.invuln_timer > 0 ∨ god = true) := by
      subst h2
      simpa using not_lt.mpr h1
    simp only [PlayerSt.hit, if_neg hcond]

/-- Witness for C3: a fresh player (timer 0, no god-mode) takes damage and
ends with 2 lives and a 1.5 second window; an invulnerable player (timer 1)
is untouched. -/
theorem player_hit_spec_witness :
    ((mkPlayer 400 570).invuln_timer ≤ 0 ∧
      (mkPlayer 400 570).hit false =
        ({ mkPlayer 400 570 with lives := (mkPlayer 400 570).lives - 1,
                                 invuln_timer := 3/2 }, true)) ∧
    (((⟨⟨375, 540, 50, 30⟩, 3, 1, 0⟩ : PlayerSt).invuln_timer > 0 ∨ false = true) ∧
      (⟨⟨375, 540, 50, 30⟩, 3, 1, 0⟩ : PlayerSt).hit false =
        ((⟨⟨375, 540, 50, 30⟩, 3, 1, 0⟩ : PlayerSt), false)) :=
  ⟨⟨by decide, (player_hit_spec (mkPlayer 400 570) false).2 (by decide) rfl⟩,
   ⟨Or.inl (by decide),
    (player_hit_spec (⟨⟨375, 540, 50, 30⟩, 3, 1, 0⟩ : PlayerSt) false).1
      (Or.inl (by decide))⟩⟩

/-! ## Claim C4 -/

/-- Claim C4: `score_add(base)` first updates the combo multiplier — a
strict increase by exactly 0.1 (no cap) when the time since the last kill is
at most the 1.0 second window, a reset to 0 otherwise — then adds
`round(base * (1 + multiplier))` points computed with the updated
multiplier, and records the call time as the last-kill time. -/
theorem score_add_spec :
    ∀ (s : ScoreSt) (b : ℤ) (t : ℚ),
      (t - s.last_kill_time ≤ COMBO_WINDOW →
        (score_add s b t).combo_mult = s.combo_mult + COMBO_STEP ∧
        s.combo_mult < (score_add s b t).combo_mult) ∧
      (COMBO_WINDOW < t - s.last_kill_time →
        (score_add s b t).combo_mult = 0) ∧
      (score_add s b t).score =
        s.score + pyRound ((b : ℚ) * (1 + (score_add s b t).combo_mult)) ∧
      (score_add s b t).last_kill_time = t := by
  intro s b t
  have hc : (score_add s b t).combo_mult =
      if t - s.last_kill_time ≤ COMBO_WINDOW then s.combo_mult + COMBO_STEP else 0 := rfl
  have hstep : (0:ℚ) < COMBO_STEP := by norm_num [COMBO_STEP]
  refine ⟨fun h => ?_, fun h => ?_, rfl, rfl⟩
  · rw [hc, if_pos h]
    exact ⟨rfl, by linarith⟩
  · rw [hc, if_neg (not_le.mpr h)]

/-- Witness for C4: from multiplier 0.3, a kill 0.5s after the previous one
raises the multiplier to 0.4 and awards round(10 * 1.4) = 14 points; a kill
2s after the previous one resets the multiplier and awards 10 points. -/
theorem score_add_spec_witness :
    ((1/2 : ℚ) - 0 ≤ COMBO_WINDOW ∧
      (score_add ⟨100, 3/10, 0⟩ 10 (1/2)).combo_mult = 3/10 + COMBO_STEP ∧
      (3/10 : ℚ) < (score_add ⟨100, 3/10, 0⟩ 10 (1/2)).combo_mult) ∧
    (COMBO_WINDOW < (2 : ℚ) - 0 ∧
      (score_add ⟨100, 3/10, 0⟩ 10 2).combo_mult = 0) ∧
    (score_add ⟨100, 3/10, 0⟩ 10 (1/2)).score =
      100 + pyRound ((10 : ℚ) * (1 + (score_add ⟨100, 3/10, 0⟩ 10 (1/2)).combo_mult)) :=
  ⟨⟨by norm_num [COMBO_WINDOW],
    ((score_add_spec ⟨100, 3/10, 0⟩ 10 (1/2)).1 (by norm_num [COMBO_WINDOW])).1,
    ((score_add_spec ⟨100, 3/10, 0⟩ 10 (1/2)).1 (by norm_num [COMBO_WINDOW])).2⟩,
   ⟨by norm_num [COMBO_WINDOW],
    (score_add_spec ⟨100, 3/10, 0⟩ 10 2).2.1 (by norm_num [COMBO_WINDOW])⟩,
   (score_add_spec ⟨100, 3/10, 0⟩ 10 (1/2)).2.2.1⟩

/-! ## Claim C5 -/

theorem shieldsCollide_of_no_overlap (b : Bullet) :
    ∀ pieces : List ShieldPiece,
      (∀ p ∈ pieces, p.rect.colliderect b.rect = false) →
      shieldsCollide pieces b = (pieces, false) := by
  intro pieces
  induction pieces with
  | nil => intro _; rfl
  | cons p rest ih =>
      intro h
      have hp := h p (by simp)
      have hrest := ih (fun q hq => h q (by simp [hq]))
      simp [shieldsCollide, hp, hrest]

theorem shieldsCollide_first_hit (b : Bullet) (p : ShieldPiece)
    (hcol : p.rect.colliderect b.rect = true) :
    ∀ pre post : List ShieldPiece,
      (∀ q ∈ pre, q.rect.colliderect b.rect = false) →
      shieldsCollide (pre ++ p :: post) b =
        (pre ++ (if p.hp - 1 ≤ 0 then post else { p with hp := p.hp - 1 } :: post),
         true) := by
  intro pre
  induction pre with
  | nil =>
      intro post _
      simp [shieldsCollide, hcol]
  | cons q qre ih =>
      intro post h
      have hq := h q (by simp)
      have hrec := ih post (fun x hx => h x (by simp [hx]))
      simp [shieldsCollide, hq, hrec]

/-- Claim C5: `Shields.collide_bullet` leaves the pieces untouched and
reports `false` when no piece's box intersects the bullet; otherwise exactly
the first intersecting piece in stored order loses one hit point, it is
removed exactly when its hit points reach zero (for any piece with at least
one hit point, as every piece the game builds and keeps has), every other
piece is unchanged, and the call reports `true` whether or not the piece was
destroyed; the outcome depends on the bullet only through its box, so player
and enemy bullets are treated alike. -/
theorem shields_collide_spec :
    ∀ (pieces : List ShieldPiece) (b : Bullet),
      ((∀ p ∈ pieces, p.rect.colliderect b.rect = false) →
        shieldsCollide pieces b = (pieces, false)) ∧
      (∀ pre p post, pieces = pre ++ p :: post →
        (∀ q ∈ pre, q.rect.colliderect b.rect = false) →
        p.rect.colliderect b.rect = true →
        1 ≤ p.hp →
        shieldsCollide pieces b =
          (pre ++ (if p.hp - 1 = 0 then post else { p with hp := p.hp - 1 } :: post),
           true)) ∧
      (∀ (qs : List ShieldPiece) (b2 : Bullet), b2.rect = b.rect →
        shieldsCollide qs b2 = shieldsCollide qs b) := by
  intro pieces b
  refine ⟨shieldsCollide_of_no_overlap b pieces, ?_, ?_⟩
  · intro pre p post hsplit hpre hcol hhp
    subst hsplit
    rw [shieldsCollide_first_hit b p hcol pre post hpre]
    have hiff : (p.hp - 1 ≤ 0) ↔ (p.hp - 1 = 0) := by omega
    simp only [hiff]
  · intro qs b2 hb
    induction qs with
    | nil => rfl
    | cons q rest ih => simp [shieldsCollide, hb, ih]

/-- Witness for C5: the sample bullet misses `pieceA`, strikes the
one-hit-point `pieceB` first, destroys and removes it, and is consumed. -/
theorem shields_collide_spec_witness :
    shieldsCollide [pieceA, pieceB] shieldBulletSample =
      ([pieceA] ++ (if pieceB.hp - 1 = 0 then []
                    else [{ pieceB with hp := pieceB.hp - 1 }]), true) :=
  (shields_collide_spec [pieceA, pieceB] shieldBulletSample).2.1
    [pieceA] pieceB [] rfl (by decide) (by decide) (by decide)

/-! ## Claim C2 -/

/-- Claim C2 counterexample: in a PLAYING frame with a live boss (spawn
countdown 5s, frame time 1s), `update_game` still decrements the boss-spawn
countdown — `self.next_boss_time -= dt` runs unconditionally — so the
remaining countdown is not unchanged while a boss exists. -/
theorem boss_countdown_cex :
    (mkBoss 50).alive = true ∧
    (bossStep 5 (some (mkBoss 50)) 1 25).1 ≠ 5 := by
  refine ⟨rfl, ?_⟩
  have h : (bossStep 5 (some (mkBoss 50)) 1 25).1 = 5 - 1 := rfl
  rw [h]; norm_num

/-- Claim C2 (amended): the boss-spawn countdown keeps running on every
PLAYING frame, including while a boss is alive (it decreases by exactly dt);
while a boss exists no new boss can spawn (the existing boss is merely moved
and despawned when dead); and the countdown is reset to the fresh uniform
draw at the moment a boss spawns — when it reaches zero with no boss alive —
not after the despawn. -/
theorem boss_countdown_spec :
    (∀ (t : ℚ) (b : BossSt) (dt r : ℚ),
      (bossStep t (some b) dt r).1 = t - dt ∧
      (bossStep t (some b) dt r).2 =
        (if (b.update dt).alive = true then some (b.update dt) else none)) ∧
    (∀ t dt r : ℚ, t - dt ≤ 0 →
      (bossStep t none dt r).1 = r ∧
      (bossStep t none dt r).2 =
        (if ((mkBoss 50).update dt).alive = true then some ((mkBoss 50).update dt)
         else none)) ∧
    (∀ t dt r : ℚ, 0 < t - dt → bossStep t none dt r = (t - dt, none)) := by
  refine ⟨fun t b dt r => ⟨rfl, rfl⟩, fun t dt r h => ?_, fun t dt r h => ?_⟩
  · constructor
    · show (if t - dt ≤ 0 then _ else (t - dt, none)).1 = r
      rw [if_pos h]
    · show (if t - dt ≤ 0 then _ else (t - dt, none)).2 = _
      rw [if_pos h]
  · show (if t - dt ≤ 0 then _ else (t - dt, none)) = (t - dt, none)
    rw [if_neg (not_le.mpr h)]

/-- Witness for the amended C2 theorem: countdown 5 with a live boss becomes
4 after a 1s frame; countdown 1 with no boss and a 2s frame spawns and resets
the countdown to the fresh draw 25; countdown 5 with no boss and a 1s frame
just ticks down to 4. -/
theorem boss_countdown_spec_witness :
    ((bossStep 5 (some (mkBoss 50)) 1 25).1 = 5 - 1) ∧
    ((1:ℚ) - 2 ≤ 0 ∧ (bossStep 1 none 2 25).1 = 25) ∧
    ((0:ℚ) < 5 - 1 ∧ bossStep 5 none 1 25 = (5 - 1, none)) :=
  ⟨(boss_countdown_spec.1 5 (mkBoss 50) 1 25).1,
   ⟨by norm_num, (boss_countdown_spec.2.1 1 2 25 (by norm_num)).1⟩,
   ⟨by norm_num, boss_countdown_spec.2.2 5 1 25 (by norm_num)⟩⟩

/-! ## Claim C8 -/

/-- Claim C8: every call to `EnemyGrid.update(dt)` moves each enemy
horizontally by the integer step derived from
`direction * speed * (1 + 0.6 * (1 - aliveFraction)) * dt`; when the bounding
box of the moved grid reaches a horizontal bound within the 20px margin in
the current direction of travel, the direction is reversed exactly once and
every enemy's vertical position increases by exactly the fixed 20px step
exactly once; otherwise direction and all vertical positions are unchanged. -/
theorem grid_update_spec :
    ∀ (g : EnemyGrid) (dt : ℚ),
      gridDx g dt =
        pyInt ((g.dir : ℚ) * g.speed *
          (1 + 6/10 * (1 - (g.enemies.length : ℚ) / 48)) * dt) ∧
      (g.update dt).enemies.map (fun e => e.rect.x) =
        g.enemies.map (fun e => e.rect.x + gridDx g dt) ∧
      (gridHitEdge g dt →
        (g.update dt).dir = -g.dir ∧
        (g.update dt).enemies.map (fun e => e.rect.y) =
          g.enemies.map (fun e => e.rect.y + ENEMY_STEP_DOWN)) ∧
      (¬ gridHitEdge g dt →
        (g.update dt).dir = g.dir ∧
        (g.update dt).enemies.map (fun e => e.rect.y) =
          g.enemies.map (fun e => e.rect.y)) := by
  intro g dt
  have hdx : gridDx g dt =
      pyInt ((g.dir : ℚ) * g.speed *
        (1 + 6/10 * (1 - (g.enemies.length : ℚ) / 48)) * dt) := by
    unfold gridDx
    norm_num [ENEMY_ROWS, ENEMY_COLS]
  by_cases h : gridHitEdge g dt
  · refine ⟨hdx, ?_, fun _ => ⟨?_, ?_⟩, fun hn => absurd h hn⟩ <;>
      simp [EnemyGrid.update, if_pos h, List.map_map, Function.comp,
        enemyStepDown, enemyMove]
  · refine ⟨hdx, ?_, fun he => absurd he h, fun _ => ⟨?_, ?_⟩⟩ <;>
      simp [EnemyGrid.update, if_neg h, List.map_map, Function.comp, enemyMove]

/-- Witness for C8: a lone enemy at x = 740 (box right edge 784 ≥ 780)
marching right makes the grid reverse to leftward and step down by 20; the
same grid marching left crosses no margin and keeps direction and height. -/
theorem grid_update_spec_witness :
    (gridHitEdge edgeGrid 0 ∧
      (edgeGrid.update 0).dir = -edgeGrid.dir ∧
      (edgeGrid.update 0).enemies.map (fun e => e.rect.y) =
        edgeGrid.enemies.map (fun e => e.rect.y + ENEMY_STEP_DOWN)) ∧
    (¬ gridHitEdge midGrid 0 ∧
      (midGrid.update 0).dir = midGrid.dir ∧
      (midGrid.update 0).enemies.map (fun e => e.rect.y) =
        midGrid.enemies.map (fun e => e.rect.y)) := by
  have hedge : gridHitEdge edgeGrid 0 :=
    of_decide_eq_true (by with_unfolding_all rfl)
  have hmid : ¬ gridHitEdge midGrid 0 :=
    of_decide_eq_false (by with_unfolding_all rfl)
  exact ⟨⟨hedge, (grid_update_spec edgeGrid 0).2.2.1 hedge⟩,
         ⟨hmid, (grid_update_spec midGrid 0).2.2.2 hmid⟩⟩

/-! ## Claim C7 -/

/-- Claim C7: whenever some living enemy's box overlaps the player's box or
crosses the near-bottom threshold during collision resolution, the player is
hit, the whole current wave is regenerated as a fresh `EnemyGrid` at the same
wave number (the game's wave counter is always at least 1, so
`max(1, wave) = wave`), all bullets are cleared, the player is repositioned
to the start position, and the game-over check (lives ≤ 0 and not god-mode)
is re-applied. -/
theorem breach_penalty_spec :
    ∀ (st : GameSt) (god : Bool) (draw : ℕ → ℚ) (g : EnemyGrid),
      st.grid = some g →
      g.enemies.any (breachCond st.player) = true →
      1 ≤ st.wave →
      st.scene = Scene.PLAYING →
      (st.enemyBreachStep god draw).grid = some (mkEnemyGrid st.wave draw) ∧
      (st.enemyBreachStep god draw).bullets = [] ∧
      (st.enemyBreachStep god draw).player = ((st.player.hit god).1).reset_position ∧
      ((st.enemyBreachStep god draw).scene = Scene.GAME_OVER ↔
        ((st.player.hit god).1.lives ≤ 0 ∧ god = false)) := by
  intro st god draw g hg hany hw hscene
  have hmax : max 1 st.wave = st.wave := Nat.max_eq_right hw
  by_cases hgo : (st.player.hit god).1.lives ≤ 0 ∧ god = false
  · obtain ⟨hl, hgf⟩ := hgo
    subst hgf
    cases hd : (st.player.hit false).2 <;>
      simp [GameSt.enemyBreachStep, hg, hany, hd, GameSt.game_over,
        GameSt.shake, hmax, hl]
  · cases hd : (st.player.hit god).2 <;>
      simp [GameSt.enemyBreachStep, hg, hany, hd, if_neg hgo, GameSt.game_over,
        GameSt.shake, hmax, hgo, hscene]

/-- Witness for C7: in `breachSample` (wave 1, an enemy past the near-bottom
threshold and overlapping the player, 3 lives, no god-mode) the penalty
regenerates wave 1, clears the bullets, repositions the hit player, and the
game-over check does not fire. -/
theorem breach_penalty_spec_witness :
    breachSample.grid = some breachGrid ∧
    breachGrid.enemies.any (breachCond breachSample.player) = true ∧
    1 ≤ breachSample.wave ∧
    breachSample.scene = Scene.PLAYING ∧
    (breachSample.enemyBreachStep false sampleDraw).grid =
      some (mkEnemyGrid breachSample.wave sampleDraw) ∧
    (breachSample.enemyBreachStep false sampleDraw).bullets = [] ∧
    (breachSample.enemyBreachStep false sampleDraw).player =
      ((breachSample.player.hit false).1).reset_position ∧
    ((breachSample.enemyBreachStep false sampleDraw).scene = Scene.GAME_OVER ↔
      ((breachSample.player.hit false).1.lives ≤ 0 ∧ false = false)) := by
  have h2 : breachGrid.enemies.any (breachCond breachSample.player) = true := by
    with_unfolding_all rfl
  have hall := breach_penalty_spec breachSample false sampleDraw breachGrid rfl h2
    (by decide) rfl
  exact ⟨rfl, h2, by decide, rfl, hall.1, hall.2.1, hall.2.2.1, hall.2.2.2⟩

/-! ## Claim C9 -/

/-- Claim C9 counterexample: the enemy-breach penalty also changes the
camera-shake state, which the claim's exhaustive list of changed fields
excludes: in `breachSample` the player takes damage, so `shake(12)` runs and
the shake magnitude jumps from 0 to 12 and the shake timer from 0 to 0.28. -/
theorem breach_effect_cex :
    breachGrid.enemies.any (breachCond breachSample.player) = true ∧
    (breachSample.enemyBreachStep false sampleDraw).shake_mag ≠
      breachSample.shake_mag ∧
    (breachSample.enemyBreachStep false sampleDraw).shake_timer ≠
      breachSample.shake_timer := by
  refine ⟨by with_unfolding_all rfl, ?_, ?_⟩
  · have h : (breachSample.enemyBreachStep false sampleDraw).shake_mag = 12 := by
      with_unfolding_all rfl
    have h0 : breachSample.shake_mag = 0 := rfl
    rw [h, h0]; norm_num
  · have h : (breachSample.enemyBreachStep false sampleDraw).shake_timer = 28/100 := by
      with_unfolding_all rfl
    have h0 : breachSample.shake_timer = 0 := rfl
    rw [h, h0]; norm_num

/-- Claim C9 (amended): the enemy-breach penalty changes only the enemy
grid, the bullet list, the player (position via reset, lives and
invulnerability timer via `hit()`), the camera-shake timer and magnitude
(when the hit applies damage), and — when the re-applied game-over check
fires — the scene, highscore table and new-highscore flag; the score, combo
multiplier, last-kill time, wave number, shield pieces, particle list, boss
and boss-spawn countdown (and the player's shoot-cooldown timer) are
unchanged. -/
theorem breach_effect_frame :
    ∀ (st : GameSt) (god : Bool) (draw : ℕ → ℚ),
      ((st.enemyBreachStep god draw).score = st.score ∧
       (st.enemyBreachStep god draw).combo_mult = st.combo_mult ∧
       (st.enemyBreachStep god draw).last_kill_time = st.last_kill_time ∧
       (st.enemyBreachStep god draw).wave = st.wave ∧
       (st.enemyBreachStep god draw).shields = st.shields ∧
       (st.enemyBreachStep god draw).particles = st.particles ∧
       (st.enemyBreachStep god draw).boss = st.boss ∧
       (st.enemyBreachStep god draw).next_boss_time = st.next_boss_time ∧
       (st.enemyBreachStep god draw).player.shoot_timer = st.player.shoot_timer) ∧
      (∀ g, st.grid = some g → g.enemies.any (breachCond st.player) = true →
        (((st.player.hit god).2 = true →
           (st.enemyBreachStep god draw).shake_timer = 28/100 ∧
           (st.enemyBreachStep god draw).shake_mag = max st.shake_mag 12) ∧
         ((st.player.hit god).2 = false →
           (st.enemyBreachStep god draw).shake_timer = st.shake_timer ∧
           (st.enemyBreachStep god draw).shake_mag = st.shake_mag))) := by
  intro st god draw
  have hsh : ∀ (p : PlayerSt) (gb : Bool), ((p.hit gb).1).shoot_timer = p.shoot_timer := by
    intro p gb
    unfold PlayerSt.hit
    split <;> rfl
  cases hg : st.grid with
  | none =>
      exact ⟨by simp [GameSt.enemyBreachStep, hg], fun g hgg => Option.noConfusion hgg⟩
  | some g =>
      by_cases hany : g.enemies.any (breachCond st.player) = true
      · by_cases hgo : (st.player.hit god).1.lives ≤ 0 ∧ god = false
        · obtain ⟨hl, hgf⟩ := hgo
          subst hgf
          cases hd : (st.player.hit false).2 <;>
            refine ⟨by simp [GameSt.enemyBreachStep, hg, hany, hd, hl,
                GameSt.game_over, GameSt.shake, PlayerSt.reset_position, hsh],
              fun g2 hg2 _ => ?_⟩ <;>
            simp [GameSt.enemyBreachStep, hg, hany, hd, hl,
              GameSt.game_over, GameSt.shake]
        · cases hd : (st.player.hit god).2 <;>
            refine ⟨by simp [GameSt.enemyBreachStep, hg, hany, hd, if_neg hgo,
                GameSt.game_over, GameSt.shake, PlayerSt.reset_position, hsh],
              fun g2 hg2 _ => ?_⟩ <;>
            simp [GameSt.enemyBreachStep, hg, hany, hd, if_neg hgo,
              GameSt.game_over, GameSt.shake]
      · refine ⟨by simp [GameSt.enemyBreachStep, hg, hany], fun g2 hg2 hany2 => ?_⟩
        cases hg2
        exact absurd hany2 hany

/-- Witness for the amended C9 theorem on `breachSample`: the listed fields
are unchanged across the penalty and the damaging hit sets the shake state. -/
theorem breach_effect_frame_witness :
    ((breachSample.enemyBreachStep false sampleDraw).score = breachSample.score ∧
     (breachSample.enemyBreachStep false sampleDraw).shields = breachSample.shields ∧
     (breachSample.enemyBreachStep false sampleDraw).particles = breachSample.particles) ∧
    ((breachSample.player.hit false).2 = true →
      (breachSample.enemyBreachStep false sampleDraw).shake_timer = 28/100 ∧
      (breachSample.enemyBreachStep false sampleDraw).shake_mag =
        max breachSample.shake_mag 12) := by
  have hall := breach_effect_frame breachSample false sampleDraw
  exact ⟨⟨hall.1.1, hall.1.2.2.2.2.1, hall.1.2.2.2.2.2.1⟩,
         (hall.2 breachGrid rfl (by with_unfolding_all rfl)).1⟩

/-! ## Claim C6 -/

theorem colsUpdate_sound {seen : List Enemy} {cols : List (ℤ × Enemy)}
    (h : ColsSound seen cols) (e : Enemy) :
    ColsSound (seen ++ [e]) (colsUpdate cols e) := by
  obtain ⟨h1, h2⟩ := h
  unfold colsUpdate
  by_cases hf : (cols.find? (fun q => decide (q.1 = colBucket e))).isSome = true
  · rw [if_pos hf]
    obtain ⟨q0, hq0m, hq0p⟩ := List.find?_isSome.mp hf
    have hq0k : q0.1 = colBucket e := of_decide_eq_true hq0p
    constructor
    · intro q hq
      rcases List.mem_map.mp hq with ⟨p, hpm, rfl⟩
      by_cases hc : p.1 = colBucket e ∧ e.rect.bottom > p.2.rect.bottom
      · rw [if_pos hc]
        refine ⟨List.mem_append.mpr (Or.inr (by simp)), hc.1.symm, ?_⟩
        intro x hx hbx
        rcases List.mem_append.mp hx with hx | hx
        · exact le_trans ((h1 p hpm).2.2 x hx hbx) (le_of_lt hc.2)
        · rw [List.mem_singleton.mp hx]
      · rw [if_neg hc]
        obtain ⟨hmem, hbk, hmax⟩ := h1 p hpm
        refine ⟨List.mem_append.mpr (Or.inl hmem), hbk, ?_⟩
        intro x hx hbx
        rcases List.mem_append.mp hx with hx | hx
        · exact hmax x hx hbx
        · rw [List.mem_singleton.mp hx]
          have hkey : p.1 = colBucket e := by
            rw [← hbx, List.mem_singleton.mp hx]
          exact not_lt.mp (fun hgt => hc ⟨hkey, hgt⟩)
    · intro x hx
      rcases List.mem_append.mp hx with hx | hx
      · obtain ⟨q, hqm, hqk⟩ := h2 x hx
        refine ⟨(if q.1 = colBucket e ∧ e.rect.bottom > q.2.rect.bottom
            then (q.1, e) else q), List.mem_map_of_mem _ hqm, ?_⟩
        by_cases hcq : q.1 = colBucket e ∧ e.rect.bottom > q.2.rect.bottom
        · rw [if_pos hcq]; exact hqk
        · rw [if_neg hcq]; exact hqk
      · rw [List.mem_singleton.mp hx]
        refine ⟨(if q0.1 = colBucket e ∧ e.rect.bottom > q0.2.rect.bottom
            then (q0.1, e) else q0), List.mem_map_of_mem _ hq0m, ?_⟩
        by_cases hcq : q0.1 = colBucket e ∧ e.rect.bottom > q0.2.rect.bottom
        · rw [if_pos hcq]; exact hq0k
        · rw [if_neg hcq]; exact hq0k
  · rw [if_neg hf]
    have hnone : ∀ q ∈ cols, q.1 ≠ colBucket e := by
      intro q hq
      have := List.find?_eq_none.mp (Option.not_isSome_iff_eq_none.mp hf) q hq
      simpa using this
    constructor
    · intro q hq
      rcases List.mem_append.mp hq with hq | hq
      · obtain ⟨hmem, hbk, hmax⟩ := h1 q hq
        refine ⟨List.mem_append.mpr (Or.inl hmem), hbk, ?_⟩
        intro x hx hbx
        rcases List.mem_append.mp hx with hx | hx
        · exact hmax x hx hbx
        · rw [List.mem_singleton.mp hx] at hbx
          exact absurd hbx.symm (hnone q hq)
      · rw [List.mem_singleton.mp hq]
        refine ⟨List.mem_append.mpr (Or.inr (by simp)), rfl, ?_⟩
        intro x hx hbx
        rcases List.mem_append.mp hx with hx | hx
        · obtain ⟨q2, hq2m, hq2k⟩ := h2 x hx
          exact absurd (hq2k.trans hbx) (hnone q2 hq2m)
        · rw [List.mem_singleton.mp hx]
    · intro x hx
      rcases List.mem_append.mp hx with hx | hx
      · obtain ⟨q, hqm, hqk⟩ := h2 x hx
        exact ⟨q, List.mem_append.mpr (Or.inl hqm), hqk⟩
      · rw [List.mem_singleton.mp hx]
        exact ⟨(colBucket e, e), List.mem_append.mpr (Or.inr (by simp)), rfl⟩

theorem shooterCols_sound_aux :
    ∀ (rest seen : List Enemy) (cols : List (ℤ × Enemy)),
      ColsSound seen cols →
      ColsSound (seen ++ rest) (rest.foldl colsUpdate cols) := by
  intro rest
  induction rest with
  | nil => intro seen cols h; simpa using h
  | cons e rest2 ih =>
      intro seen cols h
      have hstep := ih (seen ++ [e]) (colsUpdate cols e) (colsUpdate_sound h e)
      simpa [List.append_assoc] using hstep

theorem shooterCols_sound (enemies : List Enemy) :
    ColsSound enemies (shooterCols enemies) := by
  have h0 : ColsSound [] [] := by
    constructor
    · intro q hq; exact absurd hq (List.not_mem_nil q)
    · intro e he; exact absurd he (List.not_mem_nil e)
  have := shooterCols_sound_aux enemies [] [] h0
  simpa [shooterCols] using this

theorem try_enemy_shot_eq_of_cons (g : EnemyGrid) (bullets : List Bullet)
    (cap : ℕ) (r : ℚ) (choice : ℕ) (c0 : ℤ × Enemy) (rest : List (ℤ × Enemy))
    (hcond : ¬ ((bullets.filter (fun b => !b.is_player)).length ≥ cap ∨
      g.enemies.length = 0))
    (hc : shooterCols g.enemies = c0 :: rest) :
    g.try_enemy_shot bullets cap r choice =
      (if r < g.fire_rate / (FPS:ℚ) then
        bullets ++ [mkBullet
          ((((c0 :: rest).map Prod.snd).getD
            (choice % ((c0 :: rest).map Prod.snd).length) c0.2).rect.centerx)
          ((((c0 :: rest).map Prod.snd).getD
            (choice % ((c0 :: rest).map Prod.snd).length) c0.2).rect.bottom + 6)
          ENEMY_BULLET_SPEED 1 false]
      else bullets) := by
  unfold EnemyGrid.try_enemy_shot
  rw [if_neg hcond, hc]

/-- Claim C6: `try_enemy_shot` is a no-op on the bullet list when the active
enemy-bullet count is at the cap or no enemy is alive; otherwise the eligible
shooters are exactly the bottom-most living enemy of each column bucket
(bucket = box horizontal center floor-divided by the 70px column spacing,
stated by `ColsSound`), a shot happens exactly when the uniform draw is below
`fire_rate / FPS`, and then exactly one downward enemy bullet is appended,
spawned at the position of the eligible enemy selected by the uniform choice
index. -/
theorem try_enemy_shot_spec :
    ∀ (g : EnemyGrid) (bullets : List Bullet) (cap : ℕ) (r : ℚ) (choice : ℕ),
      ColsSound g.enemies (shooterCols g.enemies) ∧
      (((bullets.filter (fun b => !b.is_player)).length ≥ cap ∨ g.enemies = []) →
        g.try_enemy_shot bullets cap r choice = bullets) ∧
      ((bullets.filter (fun b => !b.is_player)).length < cap → g.enemies ≠ [] →
        ((g.fire_rate / (FPS:ℚ) ≤ r →
           g.try_enemy_shot bullets cap r choice = bullets) ∧
         (r < g.fire_rate / (FPS:ℚ) → choice < (shooterCols g.enemies).length →
           g.try_enemy_shot bullets cap r choice =
             bullets ++ [mkBullet
               (((shooterCols g.enemies).getD choice ((0 : ℤ), defaultEnemy)).2.rect.centerx)
               (((shooterCols g.enemies).getD choice ((0 : ℤ), defaultEnemy)).2.rect.bottom + 6)
               ENEMY_BULLET_SPEED 1 false] ∧
           (0:ℚ) < ENEMY_BULLET_SPEED))) := by
  intro g bullets cap r choice
  refine ⟨shooterCols_sound g.enemies, fun h => ?_, fun hcap hne => ?_⟩
  · unfold EnemyGrid.try_enemy_shot
    rw [if_pos]
    rcases h with h | h
    · exact Or.inl h
    · exact Or.inr (by rw [h]; rfl)
  · have hcond : ¬ ((bullets.filter (fun b => !b.is_player)).length ≥ cap ∨
        g.enemies.length = 0) := by
      push_neg
      exact ⟨hcap, fun h0 => hne (List.length_eq_zero.mp h0)⟩
    cases hc : shooterCols g.enemies with
    | nil =>
        obtain ⟨e, he⟩ := List.exists_mem_of_ne_nil g.enemies hne
        obtain ⟨q, hqm, _⟩ := (shooterCols_sound g.enemies).2 e he
        rw [hc] at hqm
        exact absurd hqm (List.not_mem_nil q)
    | cons c0 rest =>
        constructor
        · intro hle
          rw [try_enemy_shot_eq_of_cons g bullets cap r choice c0 rest hcond hc,
            if_neg (not_lt.mpr hle)]
        · intro hlt hch
          refine ⟨?_, by norm_num [ENEMY_BULLET_SPEED]⟩
          rw [try_enemy_shot_eq_of_cons g bullets cap r choice c0 rest hcond hc,
            if_pos hlt]
          have hlenm : ((c0 :: rest).map Prod.snd).length = (c0 :: rest).length :=
            List.length_map _ _
          have hmod : choice % ((c0 :: rest).map Prod.snd).length = choice :=
            Nat.mod_eq_of_lt (by rw [hlenm]; exact hch)
          rw [hmod]
          have hch2 : choice < ((c0 :: rest).map Prod.snd).length := by
            rw [hlenm]; exact hch
          rw [List.getD_eq_getElem _ _ hch2, List.getD_eq_getElem _ _ hch,
            List.getElem_map]

/-- Witness for C6: in `shooterGridSample` (two enemies stacked in the same
column bucket, no active bullets, cap 6) a draw of 0 fires, and the single
eligible shooter — the lower enemy — emits the downward bullet. -/
theorem try_enemy_shot_spec_witness :
    ((List.filter (fun b => !b.is_player) ([] : List Bullet)).length < 6 ∧
     shooterGridSample.enemies ≠ [] ∧
     (0:ℚ) < shooterGridSample.fire_rate / (FPS:ℚ) ∧
     0 < (shooterCols shooterGridSample.enemies).length) ∧
    shooterGridSample.try_enemy_shot [] 6 0 0 =
      [] ++ [mkBullet
        (((shooterCols shooterGridSample.enemies).getD 0 ((0 : ℤ), defaultEnemy)).2.rect.centerx)
        (((shooterCols shooterGridSample.enemies).getD 0 ((0 : ℤ), defaultEnemy)).2.rect.bottom + 6)
        ENEMY_BULLET_SPEED 1 false] := by
  have hfr : shooterGridSample.fire_rate = 28/100 := rfl
  have hr : (0:ℚ) < shooterGridSample.fire_rate / (FPS:ℚ) := by
    rw [hfr]; norm_num [FPS]
  have hlen : (shooterCols shooterGridSample.enemies).length = 1 := by
    with_unfolding_all rfl
  have hch : 0 < (shooterCols shooterGridSample.enemies).length := by
    rw [hlen]; norm_num
  have hne : shooterGridSample.enemies ≠ [] := by
    intro h
    have : shooterGridSample.enemies.length = 0 := by rw [h]; rfl
    rw [show shooterGridSample.enemies.length = 2 from rfl] at this
    cases this
  exact ⟨⟨by norm_num, hne, hr, hch⟩,
    (((try_enemy_shot_spec shooterGridSample [] 6 0 0).2.2 (by norm_num) hne).2
      hr hch).1⟩

end SpaceInvader
